import Mathlib

/-!
Verification of the manga panel detection, editing and narrative-continuity
pipeline. Normalized page coordinates are embedded as rationals; the nested
Chapter → Page → Panel entity graph, the undo/redo history store, the panel
editing operations, the whitespace panel detector and the external-model
retry/fallback orchestration are shallowly embedded from the TypeScript
source (components/VideoPreviewer.tsx MangaToVideoPanel, the interactive
editor view, services/panelDetectorService.ts, services/geminiService.ts,
services/geminiTtsService.ts).
-/

namespace MangaStudio

/-- Normalized rectangle (x, y, w, h), the `CoordinatesArray` of the source,
with rationals standing for the JavaScript numbers. -/
structure Rect where
  x : ℚ
  y : ℚ
  w : ℚ
  h : ℚ
deriving DecidableEq, Repr

/-- Panel invariant claimed by the spec: the rectangle lies inside the unit
square and has strictly positive extent. -/
def Rect.Valid (r : Rect) : Prop :=
  0 ≤ r.x ∧ 0 ≤ r.y ∧ r.x + r.w ≤ 1 ∧ r.y + r.h ≤ 1 ∧ 0 < r.w ∧ 0 < r.h

instance (r : Rect) : Decidable r.Valid := by
  unfold Rect.Valid; infer_instance

/-- Panel entity (types.ts `Panel`). The per-language narrative map
`recap_texts` is an association list; fields never inspected by the verified
claims (audio map, tone/action/dialogue strings, pixel coords, flags) are
omitted. -/
structure Panel where
  panel_id : String
  index : ℕ
  coordinates : Rect
  recap_texts : List (String × String)
  confidence : ℚ
  status : String
  croppedImageBase64 : Option String
deriving DecidableEq, Repr

/-- Page entity (types.ts `StitchedPageAnalysis`); the raster fields are not
inspected by any claim and are omitted. -/
structure Page where
  stitch_id : String
  panels : List Panel
deriving DecidableEq, Repr

/-- Chapter entity (VideoPreviewer.tsx `Chapter`); the file list and status
fields are omitted. -/
structure Chapter where
  id : String
  stitchedPages : List Page
deriving DecidableEq, Repr

/-- Re-indexing step used by the source after every panel insertion, deletion,
split or duplication: `.map((panel, i) => ({ ...panel, index: i }))`. -/
def reindex (ps : List Panel) : List Panel :=
  ps.enum.map fun ip => { ip.2 with index := ip.1 }

/-- Contiguity of the `index` fields of a page's panels: they are exactly
0, 1, ..., n-1 in list order. -/
def Contig (ps : List Panel) : Prop :=
  ps.map (·.index) = List.range ps.length

instance (ps : List Panel) : Decidable (Contig ps) := by
  unfold Contig; infer_instance

/-! ## Undo/redo history store (VideoPreviewer.tsx lines 225-296) -/

/-- History container (`History<T>` in the source). -/
structure History (α : Type) where
  past : List α
  present : α
  future : List α
deriving DecidableEq, Repr

abbrev ChaptersHistory := History (List Chapter)

/-- Initial history state (`useState({past: [], present: [], future: []})`). -/
def initialHistory : ChaptersHistory := ⟨[], [], []⟩

/-- The state store's update path `setChapters` (lines 269-278): apply the
updater to the present; when recording history, a state unchanged under
JSON serialization records nothing, otherwise the old present is pushed on
`past` (capped at 50 entries by shifting the oldest) and `future` is
cleared. Structural equality stands for the `JSON.stringify` comparison. -/
def setChapters (updater : List Chapter → List Chapter) (recordHistory : Bool)
    (cur : ChaptersHistory) : ChaptersHistory :=
  let newPresent := updater cur.present
  if recordHistory = false then { cur with present := newPresent }
  else if newPresent = cur.present then cur
  else
    let newPast := cur.past ++ [cur.present]
    let newPast := if 50 < newPast.length then newPast.tail else newPast
    ⟨newPast, newPresent, []⟩

/-- The `handleUndo` callback (lines 280-287). -/
def handleUndo (h : ChaptersHistory) : ChaptersHistory :=
  match h.past.getLast? with
  | none => h
  | some previous => ⟨h.past.dropLast, previous, h.present :: h.future⟩

/-- The `handleRedo` callback (lines 289-296). -/
def handleRedo (h : ChaptersHistory) : ChaptersHistory :=
  match h.future with
  | [] => h
  | next :: rest => ⟨h.past ++ [h.present], next, rest⟩

/-- One interaction with the history store. -/
inductive StoreOp where
  | edit (updater : List Chapter → List Chapter) (recordHistory : Bool)
  | undo
  | redo

/-- Apply one store interaction. -/
def applyOp : StoreOp → ChaptersHistory → ChaptersHistory
  | .edit u rec, h => setChapters u rec h
  | .undo, h => handleUndo h
  | .redo, h => handleRedo h

/-- Apply a sequence of store interactions from left to right. -/
def applyOps (ops : List StoreOp) (h : ChaptersHistory) : ChaptersHistory :=
  ops.foldl (fun h op => applyOp op h) h

/-- History invariant: the past and future stacks together never exceed the
cap of 50 snapshots. -/
def HistInv (h : ChaptersHistory) : Prop :=
  h.past.length + h.future.length ≤ 50

/-! ## Interactive editor surface (InteractiveMangaView, src/unnamed/part_002) -/

/-- Resize handles of the editor: corners and edge midpoints. -/
inductive ResizeHandle where
  | tl | t | tr | l | r | bl | b | br
deriving DecidableEq, Repr

/-- Whether the handle name includes the left edge (`handle.includes('l')`). -/
def ResizeHandle.hasL : ResizeHandle → Bool
  | .tl | .l | .bl => true
  | _ => false

/-- Whether the handle name includes the right edge. -/
def ResizeHandle.hasR : ResizeHandle → Bool
  | .tr | .r | .br => true
  | _ => false

/-- Whether the handle name includes the top edge. -/
def ResizeHandle.hasT : ResizeHandle → Bool
  | .tl | .t | .tr => true
  | _ => false

/-- Whether the handle name includes the bottom edge. -/
def ResizeHandle.hasB : ResizeHandle → Bool
  | .bl | .b | .br => true
  | _ => false

/-- One mouse-move frame of the `moving` action (handleMouseMove, part_002
lines 76-86): translate by the pointer delta, then clamp the origin so the
rectangle stays inside the page. -/
def movingStep (orig : Rect) (startX startY curX curY : ℚ) : Rect :=
  let dx := curX - startX
  let dy := curY - startY
  let nx := orig.x + dx
  let ny := orig.y + dy
  { x := max 0 (min (1 - orig.w) nx), y := max 0 (min (1 - orig.h) ny),
    w := orig.w, h := orig.h }

/-- One mouse-move frame of the `resizing` action (handleMouseMove, part_002
lines 88-103): the handle selects which of x/y/w/h move with the pointer
delta, and a negative width or height is normalized by flipping the origin. -/
def resizingStep (orig : Rect) (handle : ResizeHandle)
    (startX startY curX curY : ℚ) : Rect :=
  let dx := curX - startX
  let dy := curY - startY
  let x := if handle.hasL then orig.x + dx else orig.x
  let w0 := if handle.hasL then orig.w - dx else orig.w
  let w := if handle.hasR then w0 + dx else w0
  let y := if handle.hasT then orig.y + dy else orig.y
  let h0 := if handle.hasT then orig.h - dy else orig.h
  let h := if handle.hasB then h0 + dy else h0
  let x2 := if w < 0 then x + w else x
  let w2 := if w < 0 then -w else w
  let y2 := if h < 0 then y + h else y
  let h2 := if h < 0 then -h else h
  ⟨x2, y2, w2, h2⟩

/-- Rectangle computed on mouse-up of the `drawing` action (handleMouseUp,
part_002 lines 107-120); a panel is created from it only when both extents
exceed the 1% threshold. -/
def drawnRect (startX startY endX endY : ℚ) : Rect :=
  ⟨min startX endX, min startY endY, |endX - startX|, |endY - startY|⟩

/-! ## Panel list operations (MangaToVideoPanel, VideoPreviewer.tsx) -/

/-- Panel-list transformation of `handleDeletePanel` (lines 298-307):
filter the panel out and re-index. -/
def deletePanelsOnPage (panelId : String) (ps : List Panel) : List Panel :=
  reindex (ps.filter fun panelItem => panelItem.panel_id != panelId)

/-- The `handleDeletePanel` callback lifted to the chapter list. -/
def handleDeletePanel (chapterId pageId panelId : String)
    (chs : List Chapter) : List Chapter :=
  chs.map fun ch =>
    if ch.id != chapterId then ch
    else { ch with stitchedPages := ch.stitchedPages.map fun p =>
        if p.stitch_id != pageId then p
        else { p with panels := deletePanelsOnPage panelId p.panels } }

/-- Top half produced by the split (coordinates `[x, y, w, splitY - y]`,
cleared narrative/audio payload, pending status). -/
def splitTopPanel (orig : Panel) (splitY : ℚ) (idA : String) : Panel :=
  { orig with
    panel_id := idA,
    coordinates := ⟨orig.coordinates.x, orig.coordinates.y,
      orig.coordinates.w, splitY - orig.coordinates.y⟩,
    recap_texts := [], status := "pending", croppedImageBase64 := none }

/-- Bottom half produced by the split (coordinates
`[x, splitY, w, (y + h) - splitY]`). -/
def splitBottomPanel (orig : Panel) (splitY : ℚ) (idB : String) : Panel :=
  { orig with
    panel_id := idB,
    coordinates := ⟨orig.coordinates.x, splitY, orig.coordinates.w,
      (orig.coordinates.y + orig.coordinates.h) - splitY⟩,
    recap_texts := [], status := "pending", croppedImageBase64 := none }

/-- Panel-list transformation of `handleSplitPanel` (lines 846-880): locate
the panel, no-op unless the split line is strictly inside its vertical
extent, otherwise replace it by the top and bottom halves and re-index.
The fresh `Date.now()`-based identifiers are abstracted as parameters. -/
def splitPanels (panelId : String) (splitY : ℚ) (idA idB : String)
    (ps : List Panel) : List Panel :=
  match ps.findIdx? (fun p => p.panel_id == panelId) with
  | none => ps
  | some i =>
    match ps[i]? with
    | none => ps
    | some orig =>
      let r := orig.coordinates
      if splitY ≤ r.y ∨ r.y + r.h ≤ splitY then ps
      else
        reindex (ps.take i
          ++ [splitTopPanel orig splitY idA, splitBottomPanel orig splitY idB]
          ++ ps.drop (i + 1))

/-- The `handleSplitPanel` callback lifted to the chapter list. -/
def handleSplitPanel (pageId panelId : String) (splitY : ℚ) (idA idB : String)
    (chs : List Chapter) : List Chapter :=
  chs.map fun ch =>
    { ch with stitchedPages := ch.stitchedPages.map fun p =>
        if p.stitch_id != pageId then p
        else { p with panels := splitPanels panelId splitY idA idB p.panels } }

/-- Direction argument of `handleCropPanel`. -/
inductive CropDirection where
  | top | bottom
deriving DecidableEq, Repr

/-- Panel-list transformation of `handleCropPanel` (lines 909-936): clamp
the cursor Y to [0,1], move the chosen edge there recomputing the height,
and accept only when the new height exceeds 0.005 (otherwise the panel is
left untouched); an accepted crop invalidates the cached crop artifact. -/
def cropPanels (panelId : String) (cropY : ℚ) (direction : CropDirection)
    (ps : List Panel) : List Panel :=
  let clamped := max 0 (min 1 cropY)
  ps.map fun panel =>
    if panel.panel_id != panelId then panel
    else
      let r := panel.coordinates
      match direction with
      | .top =>
        let originalBottom := r.y + r.h
        let newY := clamped
        let newH := originalBottom - newY
        if 5/1000 < newH then
          { panel with
            coordinates := ⟨r.x, newY, r.w, newH⟩,
            croppedImageBase64 := none }
        else panel
      | .bottom =>
        let newH := clamped - r.y
        if 5/1000 < newH then
          { panel with
            coordinates := ⟨r.x, r.y, r.w, newH⟩,
            croppedImageBase64 := none }
        else panel

/-- The `handleCropPanel` callback lifted to the chapter list. -/
def handleCropPanel (pageId panelId : String) (cropY : ℚ)
    (direction : CropDirection) (chs : List Chapter) : List Chapter :=
  chs.map fun ch =>
    { ch with stitchedPages := ch.stitchedPages.map fun p =>
        if p.stitch_id != pageId then p
        else { p with panels := cropPanels panelId cropY direction p.panels } }

/-- Panel-list transformation of `handleDuplicatePanel` (lines 949-973):
insert a copy right after the original, with a fresh id, cleared narrative
and audio, pending status, and re-index. -/
def duplicatePanels (panelId newId : String) (ps : List Panel) : List Panel :=
  match ps.findIdx? (fun p => p.panel_id == panelId) with
  | none => ps
  | some i =>
    match ps[i]? with
    | none => ps
    | some orig =>
      let newPanel : Panel :=
        { orig with panel_id := newId, recap_texts := [], status := "pending" }
      reindex (ps.take (i + 1) ++ [newPanel] ++ ps.drop (i + 1))

/-- The `handleDuplicatePanel` callback lifted to the chapter list. -/
def handleDuplicatePanel (chapterId pageId panelId newId : String)
    (chs : List Chapter) : List Chapter :=
  chs.map fun ch =>
    if ch.id != chapterId then ch
    else { ch with stitchedPages := ch.stitchedPages.map fun p =>
        if p.stitch_id != pageId then p
        else { p with panels := duplicatePanels panelId newId p.panels } }

/-- Modelled from the spec: the "Merge with Next" merge of two per-language
narrative text maps (the merge operation itself is documented in the
repository but its implementation is not among the provided sources). For
every language present in both panels the texts are concatenated with a
single separating space, as in the spec's example
recap {en: Hello} + {en: world} = {en: Hello world}; languages present in
only one panel keep their text. -/
def mergeTexts (a b : List (String × String)) : List (String × String) :=
  (a.map fun kv =>
    match b.lookup kv.1 with
    | some vb => (kv.1, kv.2 ++ " " ++ vb)
    | none => kv)
  ++ b.filter fun kv => (a.lookup kv.1).isNone

/-- Modelled from the spec: "Merge with Next" on the panel at position `i`
concatenates its narrative text with its immediate successor's in every
language, keeps the panel's geometry, removes the successor and re-indexes
the remaining panels. -/
def mergeWithNext (i : ℕ) (ps : List Panel) : List Panel :=
  match ps[i]?, ps[i + 1]? with
  | some a, some b =>
    reindex (ps.take i
      ++ [{ a with recap_texts := mergeTexts a.recap_texts b.recap_texts }]
      ++ ps.drop (i + 2))
  | _, _ => ps

/-! ## Panel detector (panelDetectorService, src/unnamed/part_004) -/

/-- Raw detected panel, `Omit<Panel, 'index'>` of the source. -/
structure DetectedPanel where
  panel_id : String
  coordinates : Rect
  confidence : ℚ
  status : String
deriving DecidableEq, Repr

/-- Horizontal projection profile: sum of the grayscale values of row `y`
over the page width. -/
def horizontalProjection (gray : ℕ → ℕ → ℚ) (width : ℕ) (y : ℕ) : ℚ :=
  ((List.range width).map fun x => gray y x).sum

/-- Mean intensity of row `y` (`horizontalProjection[y] / width`). -/
def avgRow (gray : ℕ → ℕ → ℚ) (width : ℕ) (y : ℕ) : ℚ :=
  horizontalProjection gray width y / (width : ℚ)

/-- Gutter run-length confirmation: the rows strictly between `y` and
`min (y + MIN_GUTTER_HEIGHT) height` must all stay at or above the
whiteness threshold 250. -/
def gutterConsistent (gray : ℕ → ℕ → ℚ) (width height y : ℕ) : Bool :=
  (List.range' (y + 1) (min (y + 10) height - (y + 1))).all fun i =>
    !(decide (avgRow gray width i < 250))

/-- One row of the gutter-boundary scan (detectByWhitespace, part_004 lines
126-152), carried state is (inGutter, boundaries). -/
def boundariesStep (gray : ℕ → ℕ → ℚ) (width height : ℕ)
    (st : Bool × List ℕ) (y : ℕ) : Bool × List ℕ :=
  let inGutter := st.1
  let bs := st.2
  if 250 < avgRow gray width y then
    if inGutter = false then
      if gutterConsistent gray width height y = true
          ∧ (height : ℚ) * (5/100) < (y : ℚ) - ((bs.getLast?.getD 0 : ℕ) : ℚ) then
        (true, bs ++ [y])
      else (true, bs)
    else (true, bs)
  else (false, bs)

/-- The confirmed gutter boundaries of a page, with the leading 0 and the
trailing page height. -/
def boundariesOf (gray : ℕ → ℕ → ℚ) (width height : ℕ) : List ℕ :=
  ((List.range height).foldl (boundariesStep gray width height)
    (false, [0])).2 ++ [height]

/-- Whitespace/gutter projection detection (part_004 lines 113-172): each
inter-boundary span taller than 5% of the page height becomes one
full-width panel with confidence 0.8. -/
def detectByWhitespace (gray : ℕ → ℕ → ℚ) (width height : ℕ) :
    List DetectedPanel :=
  let bs := boundariesOf gray width height
  (bs.zip bs.tail).filterMap fun se =>
    if (height : ℚ) * (5/100) < (se.2 : ℚ) - (se.1 : ℚ) then
      some { panel_id := "",
             coordinates := ⟨0, (se.1 : ℚ) / (height : ℚ), 1,
               ((se.2 : ℚ) - (se.1 : ℚ)) / (height : ℚ)⟩,
             confidence := 8/10, status := "pending" }
    else none

/-- The `panelDetectorService.detectPanels` entry point (part_004 lines
183-210): whitespace detection, with a single full-page low-confidence
fallback panel when nothing survives; the `Date.now()` id stamp is
abstracted as a parameter. -/
def detectPanels (gray : ℕ → ℕ → ℚ) (width height : ℕ) (stamp : String) :
    List DetectedPanel :=
  let whitespacePanels := detectByWhitespace gray width height
  if whitespacePanels.isEmpty then
    [{ panel_id := "fallback-0", coordinates := ⟨0, 0, 1, 1⟩,
       confidence := 3/10, status := "pending" }]
  else
    whitespacePanels.enum.map fun ip =>
      { ip.2 with panel_id := "cv-" ++ stamp ++ "-" ++ toString ip.1 }

/-- Conversion of detected panels into state-store panels performed by
`handleDetectPanels` (VideoPreviewer.tsx lines 505-508): assign contiguous
indices, empty audio map, pending status and a default id when missing. -/
def panelsFromDetection (raw : List DetectedPanel) (pageId : String) :
    List Panel :=
  raw.enum.map fun ip =>
    { panel_id := if ip.2.panel_id = "" then
        "panel-" ++ pageId ++ "-" ++ toString ip.1
      else ip.2.panel_id,
      index := ip.1, coordinates := ip.2.coordinates,
      recap_texts := [], confidence := ip.2.confidence, status := "pending",
      croppedImageBase64 := none }

/-! ## Retry and fallback machinery (geminiService.ts, geminiTtsService.ts)

External calls are abstracted as oracles mapping a model name and an
attempt number to a result; JSON transport, fence stripping and status
callbacks are not modelled. Each helper returns its result together with
the number of attempts actually made (paired with the model they were made
against, for the fallback helper). -/

/-- Attempt loop of `withRetries` (geminiTtsService.ts lines 28-48 and
geminiService.ts lines 31-51): try up to `retries` times, returning the
first success, else an error naming the last failure. The loop
`for (i = 0; i < retries; i++)` is carried as the attempt index `i` plus
the remaining attempt count, whose sum stays at `retries`, so at
exhaustion the error names `i = retries` attempts as the source does. -/
def withRetriesGo {α : Type} (fn : ℕ → Except String α)
    (lastErr : Option String) (i : ℕ) : ℕ → Except String α × ℕ
  | 0 => (.error ("All " ++ toString i ++ " attempts failed. Last error: "
      ++ lastErr.getD ""), i)
  | remaining + 1 =>
    match fn i with
    | .ok v => (.ok v, i + 1)
    | .error e => withRetriesGo fn (some e) (i + 1) remaining

/-- The `withRetries` helper: result plus number of attempts made. -/
def withRetries {α : Type} (fn : ℕ → Except String α) (retries : ℕ) :
    Except String α × ℕ :=
  withRetriesGo fn none 0 retries

/-- Exponential backoff delays slept between consecutive attempts:
`delayMs * Math.pow(2, i)` after failed attempt `i` (for every attempt but
the last). -/
def retryDelays (delayMs : ℚ) (retries : ℕ) : List ℚ :=
  (List.range (retries - 1)).map fun i => delayMs * 2 ^ i

/-- Fallback loop of `withRetriesAndFallbacks` (geminiService.ts lines
62-86): run the per-model retry helper on each model in order, advancing on
permanent per-model failure; the trace records every (model, attempt)
actually made. -/
def withRetriesAndFallbacksGo {α : Type}
    (apiCall : String → ℕ → Except String α) (retriesPerModel : ℕ) :
    List String → Option String → Except String α × List (String × ℕ)
  | [], lastErr =>
    (.error ("All fallback models failed. Last error: " ++ lastErr.getD ""),
      [])
  | m :: rest, lastErr =>
    match withRetries (apiCall m) retriesPerModel with
    | (.ok v, n) => (.ok v, (List.range n).map fun i => (m, i))
    | (.error e, n) =>
      let next := withRetriesAndFallbacksGo apiCall retriesPerModel rest
        (some e)
      (next.1, ((List.range n).map fun i => (m, i)) ++ next.2)

/-- The `withRetriesAndFallbacks` helper. -/
def withRetriesAndFallbacks {α : Type}
    (apiCall : String → ℕ → Except String α) (models : List String)
    (retriesPerModel : ℕ) : Except String α × List (String × ℕ) :=
  withRetriesAndFallbacksGo apiCall retriesPerModel models none

/-- The priority-ordered fallback list for text models (`ALL_TEXT_MODELS`). -/
def ALL_TEXT_MODELS : List String := ["gemini-2.5-flash"]

/-- The single dedicated TTS model name (`TTS_MODEL`). -/
def TTS_MODEL : String := "gemini-2.5-pro-preview-tts"

/-- One per-panel story result (`StoryGenerationResult`); the auxiliary
tone/action/dialogue strings are not inspected by any claim and are
omitted. -/
structure StoryResult where
  panel_id : String
  recap_texts : List (String × String)
deriving DecidableEq, Repr

/-- Validation set difference of `generateStoriesForPanels` (geminiService.ts
lines 242-245): the submitted panel ids, deduplicated, that are absent from
the response (the JavaScript `Set` is abstracted as list deduplication; the
listing order of duplicated ids is immaterial to every claim). -/
def missingIds (panels : List Panel) (parsed : List StoryResult) :
    List String :=
  let received := parsed.map (·.panel_id)
  ((panels.map (·.panel_id)).dedup).filter fun pid =>
    !(received.contains pid)

/-- Trailing-context fragment of the request prompt (geminiService.ts line
207). -/
def contextTextOf : Option String → String
  | some ctx => "Context from previous chapter/page chunk: \"" ++ ctx ++ "\""
  | none => ""

/-- The request prompt text of `generateStoriesForPanels` (line 209). -/
def promptTextFor (targetLanguages : List String) (ctx : Option String) :
    String :=
  "Analyze this batch of panels. For each panel, generate a story recap for the following languages: "
    ++ String.intercalate (", ") targetLanguages
    ++ ". Use the provided context and the CRITICAL character guide in the system prompt to ensure narrative flow. "
    ++ contextTextOf ctx

/-- The `generateStoriesForPanels` orchestration (lines 141-258): run the
retry/fallback wrapper around the model call, then validate that every
submitted panel id appears in the parsed response, rejecting the whole
batch otherwise; errors are wrapped by the outer catch. The oracle returns
the parsed response array. -/
def generateStoriesForPanels (panels : List Panel) (models : List String)
    (retriesPerModel : ℕ)
    (oracle : String → ℕ → Except String (List StoryResult)) :
    Except String (List StoryResult) × List (String × ℕ) :=
  let call := withRetriesAndFallbacks oracle models retriesPerModel
  match call.1 with
  | .error e => (.error ("Error generating stories: " ++ e), call.2)
  | .ok parsed =>
    let missing := missingIds panels parsed
    if missing.isEmpty then (.ok parsed, call.2)
    else
      (.error ("Error generating stories: AI response is incomplete. Missing stories for panel IDs: "
        ++ String.intercalate (", ") missing), call.2)

/-- The JavaScript `String.prototype.trim`, modelled structurally on the
character list: strip leading and trailing whitespace. -/
def trimString (s : String) : String :=
  ⟨((s.data.dropWhile Char.isWhitespace).reverse.dropWhile
      Char.isWhitespace).reverse⟩

/-- One part of a TTS response candidate. -/
structure TtsPart where
  inlineData : Option (List ℕ)
deriving DecidableEq, Repr

/-- The TTS response content inspected by `generateAudioForSegment`. -/
structure TtsResponse where
  parts : List TtsPart
  finishReason : String
deriving DecidableEq, Repr

/-- Content parts sent to the TTS model (geminiTtsService.ts lines 87-91):
the previous segment text first, when present, then the current text. -/
def ttsContentParts (text previousSegmentText : String) : List String :=
  (if trimString previousSegmentText ≠ "" then [previousSegmentText] else [])
    ++ [text]

/-- The `generateAudioForSegment` orchestration (geminiTtsService.ts lines
61-139): empty text short-circuits; otherwise the single fixed TTS model is
retried up to 3 times, and on success the last part of the response is
selected, failing when it carries no inline audio data. The trace pairs
each attempt with the model it was made against. -/
def generateAudioForSegment (text previousSegmentText : String)
    (oracle : String → ℕ → Except String TtsResponse) :
    Except String (List ℕ) × List (String × ℕ) :=
  if trimString text = "" then (.ok [], [])
  else
    let call := withRetries (oracle TTS_MODEL) 3
    let trace := (List.range call.2).map fun i => (TTS_MODEL, i)
    let result : Except String (List ℕ) :=
      match call.1 with
      | .error e => .error e
      | .ok response =>
        match response.parts.getLast? with
        | some audioPart =>
          match audioPart.inlineData with
          | some data => .ok data
          | none =>
            .error ("No audio data was generated. This could be due to content safety filters or an API error. Reason: "
              ++ response.finishReason ++ ".")
        | none =>
          .error ("No audio data was generated. This could be due to content safety filters or an API error. Reason: "
            ++ response.finishReason ++ ".")
    (result, trace)

/-! ## Global story batch (handleGenerateAllStories, VideoPreviewer.tsx
lines 737-771)

The loop is embedded with the stale-closure semantics of the source: the
running async function captured `chaptersHistory` at the render in which it
was invoked, so both the chapter lookup and the line
`const latestChapters = chaptersHistory.present;` read that captured
snapshot, while the functional `setChapters` updates flow into the true
store state, threaded separately. The model oracle returns the parsed
story results of each chapter's successful call. -/

/-- Write-back of story results into a chapter (handleGenerateStories,
lines 567-591); a response Map lookup keeps the last entry for a duplicated
id, hence the reversed search. -/
def applyStoryResults (chapterId : String) (storyData : List StoryResult)
    (chs : List Chapter) : List Chapter :=
  chs.map fun ch =>
    if ch.id != chapterId then ch
    else { ch with stitchedPages := ch.stitchedPages.map fun page =>
      { page with panels := page.panels.map fun panel =>
          match storyData.reverse.find? (fun r => r.panel_id == panel.panel_id)
            with
          | some res =>
            { panel with recap_texts := res.recap_texts, status := "complete" }
          | none => panel } }

/-- Context-threading step after a chapter completes (lines 752-760): read
the chapter back from the captured snapshot and take the last panel of its
last page; the context is only reassigned when that page has panels. -/
def nextChapterContext (captured : List Chapter) (ch : Chapter)
    (lang : String) (ctx : Option String) : Option String :=
  match captured.find? (fun c => c.id == ch.id) with
  | none => ctx
  | some updatedChapter =>
    match updatedChapter.stitchedPages.getLast? with
    | none => ctx
    | some lastPage =>
      match lastPage.panels.getLast? with
      | none => ctx
      | some lastPanel => lastPanel.recap_texts.lookup lang

/-- The `handleGenerateAllStories` loop: for each chapter of the captured
snapshot, log the (chapter id, trailing context) request when the chapter
has panels, write the results into the true store state, and compute the
next context from the captured snapshot. Returns the request log and the
final true state. -/
def runAllStories (captured : List Chapter) (lang : String)
    (oracle : String → List StoryResult) (state0 : List Chapter) :
    List (String × Option String) × List Chapter :=
  let final := captured.foldl
    (fun acc ch =>
      let ctx := acc.1
      let log := acc.2.1
      let st := acc.2.2
      let chapterPanels := ((captured.find? (fun c => c.id == ch.id)).elim
        [] fun c => (c.stitchedPages.map (·.panels)).flatten)
      if chapterPanels.isEmpty then
        (nextChapterContext captured ch lang ctx, log, st)
      else
        (nextChapterContext captured ch lang ctx,
          log ++ [(ch.id, ctx)],
          applyStoryResults ch.id (oracle ch.id) st))
    ((none : Option String), ([] : List (String × Option String)), state0)
  (final.2.1, final.2.2)

/-- Contiguity of the panel indices of every page of every chapter. -/
def AllPagesContig (chs : List Chapter) : Prop :=
  ∀ ch ∈ chs, ∀ pg ∈ ch.stitchedPages, Contig pg.panels

instance (chs : List Chapter) : Decidable (AllPagesContig chs) := by
  unfold AllPagesContig; infer_instance

/-- Concrete sample panel used by witnesses. -/
def samplePanelA : Panel :=
  ⟨"pA", 0, ⟨0, 0, 1, 1/2⟩, [("en", "Hello")], 1, "pending", none⟩

/-- Concrete sample panel used by witnesses. -/
def samplePanelB : Panel :=
  ⟨"pB", 1, ⟨0, 1/2, 1, 1/2⟩, [("en", "world")], 1, "pending", none⟩

/-- Concrete sample chapter list used by witnesses. -/
def sampleChapters : List Chapter :=
  [⟨"ch1", [⟨"pg1", [samplePanelA, samplePanelB]⟩]⟩]

/-- Concrete batch of five submitted panels. -/
def cexPanels : List Panel :=
  [⟨"p1", 0, ⟨0, 0, 1, 1⟩, [], 1, "pending", none⟩,
   ⟨"p2", 1, ⟨0, 0, 1, 1⟩, [], 1, "pending", none⟩,
   ⟨"p3", 2, ⟨0, 0, 1, 1⟩, [], 1, "pending", none⟩,
   ⟨"p4", 3, ⟨0, 0, 1, 1⟩, [], 1, "pending", none⟩,
   ⟨"p5", 4, ⟨0, 0, 1, 1⟩, [], 1, "pending", none⟩]

/-- Concrete parsed response naming only four of the five panels. -/
def cexParsed : List StoryResult :=
  [⟨"p1", []⟩, ⟨"p2", []⟩, ⟨"p3", []⟩, ⟨"p4", []⟩]

/-- Concrete parsed response naming all five panels. -/
def okParsed : List StoryResult :=
  [⟨"p1", []⟩, ⟨"p2", []⟩, ⟨"p3", []⟩, ⟨"p4", []⟩, ⟨"p5", []⟩]

/-- Concrete model oracle that immediately succeeds with the incomplete
four-panel response. -/
def cexOracle : String → ℕ → Except String (List StoryResult) :=
  fun _ _ => .ok cexParsed

/-- Concrete model oracle that immediately succeeds with the complete
five-panel response. -/
def okOracle : String → ℕ → Except String (List StoryResult) :=
  fun _ _ => .ok okParsed

/-- Two-chapter state for the continuity scenario: chapter c1 panel p1 and
chapter c2 panel p2, no narrative text generated yet. -/
def ctxChapters : List Chapter :=
  [⟨"c1", [⟨"pg1", [⟨"p1", 0, ⟨0, 0, 1, 1⟩, [], 1, "pending", none⟩]⟩]⟩,
   ⟨"c2", [⟨"pg2", [⟨"p2", 0, ⟨0, 0, 1, 1⟩, [], 1, "pending", none⟩]⟩]⟩]

/-- Story oracle for the continuity scenario: chapter c1's call produces
narrative text X for p1, chapter c2's call produces Y for p2. -/
def ctxOracle : String → List StoryResult :=
  fun cid => if cid = "c1" then [⟨"p1", [("en-US", "X")]⟩]
    else [⟨"p2", [("en-US", "Y")]⟩]

/-! ## Lemmas and theorems -/

lemma enum_map_index_eq_range {β : Type} (l : List β) (f : ℕ × β → Panel)
    (hf : ∀ ip, (f ip).index = ip.1) :
    (l.enum.map f).map (·.index) = List.range l.length := by
  rw [List.map_map]
  have h : ((fun p : Panel => p.index) ∘ f) = Prod.fst := by
    funext ip; exact hf ip
  rw [h, List.enum_map_fst]

lemma reindex_map_index (ps : List Panel) :
    (reindex ps).map (·.index) = List.range ps.length :=
  enum_map_index_eq_range ps _ fun _ => rfl

lemma reindex_length (ps : List Panel) : (reindex ps).length = ps.length := by
  unfold reindex
  rw [List.length_map, List.enum_length]

lemma contig_reindex (ps : List Panel) : Contig (reindex ps) := by
  unfold Contig
  rw [reindex_map_index, reindex_length]

lemma reindex_getElem? (ps : List Panel) (j : ℕ) :
    (reindex ps)[j]? = ps[j]?.map fun p => { p with index := j } := by
  unfold reindex
  rw [List.getElem?_map, List.getElem?_enum]
  cases ps[j]? <;> rfl

lemma mem_reindex (ps : List Panel) (p : Panel) (hp : p ∈ reindex ps) :
    ∃ q ∈ ps, p.coordinates = q.coordinates := by
  unfold reindex at hp
  rw [List.mem_map] at hp
  obtain ⟨ip, hmem, rfl⟩ := hp
  exact ⟨ip.2, List.getElem?_mem (List.mem_enum_iff_getElem?.mp hmem), rfl⟩

lemma contig_deletePanelsOnPage (panelId : String) (ps : List Panel) :
    Contig (deletePanelsOnPage panelId ps) :=
  contig_reindex _

lemma contig_splitPanels (panelId : String) (splitY : ℚ) (idA idB : String)
    (ps : List Panel) (h : Contig ps) :
    Contig (splitPanels panelId splitY idA idB ps) := by
  unfold splitPanels
  cases hf : ps.findIdx? (fun p => p.panel_id == panelId) with
  | none => exact h
  | some i =>
    dsimp only
    cases hg : ps[i]? with
    | none => exact h
    | some orig =>
      dsimp only
      split
      · exact h
      · exact contig_reindex _

lemma contig_duplicatePanels (panelId newId : String) (ps : List Panel)
    (h : Contig ps) : Contig (duplicatePanels panelId newId ps) := by
  unfold duplicatePanels
  cases hf : ps.findIdx? (fun p => p.panel_id == panelId) with
  | none => exact h
  | some i =>
    dsimp only
    cases hg : ps[i]? with
    | none => exact h
    | some orig => exact contig_reindex _

lemma contig_mergeWithNext (i : ℕ) (ps : List Panel) (h : Contig ps) :
    Contig (mergeWithNext i ps) := by
  unfold mergeWithNext
  cases ha : ps[i]? with
  | none => exact h
  | some a =>
    cases hb : ps[i + 1]? with
    | none => exact h
    | some b => exact contig_reindex _

lemma contig_panelsFromDetection (raw : List DetectedPanel) (pageId : String) :
    Contig (panelsFromDetection raw pageId) := by
  unfold Contig panelsFromDetection
  rw [enum_map_index_eq_range raw _ fun _ => rfl, List.length_map,
    List.enum_length]

lemma pages_contig_of_map (pgs : List Page) (g : Page → Page)
    (hg : ∀ pg, Contig pg.panels → Contig (g pg).panels)
    (h : ∀ pg ∈ pgs, Contig pg.panels) :
    ∀ pg ∈ pgs.map g, Contig pg.panels := by
  intro pg hpg
  rw [List.mem_map] at hpg
  obtain ⟨pg0, h0, rfl⟩ := hpg
  exact hg pg0 (h pg0 h0)

lemma allPagesContig_map (chs : List Chapter) (F : Chapter → Chapter)
    (hF : ∀ ch, (∀ pg ∈ ch.stitchedPages, Contig pg.panels) →
      ∀ pg ∈ (F ch).stitchedPages, Contig pg.panels)
    (h : AllPagesContig chs) : AllPagesContig (chs.map F) := by
  intro ch hch pg hpg
  rw [List.mem_map] at hch
  obtain ⟨ch0, hch0, rfl⟩ := hch
  exact hF ch0 (h ch0 hch0) pg hpg

lemma capped_getLast? (l : List (List Chapter)) (x : List Chapter) :
    ((if 50 < (l ++ [x]).length then (l ++ [x]).tail else l ++ [x])).getLast?
      = some x := by
  split
  next h =>
    cases l with
    | nil => simp at h
    | cons a l' => simp [List.getLast?_concat]
  next h => exact List.getLast?_concat l

lemma setChapters_record_of_ne (u : List Chapter → List Chapter)
    (H : ChaptersHistory) (hne : u H.present ≠ H.present) :
    setChapters u true H =
      ⟨if 50 < (H.past ++ [H.present]).length then (H.past ++ [H.present]).tail
        else H.past ++ [H.present], u H.present, []⟩ := by
  simp only [setChapters]
  simp [hne]

lemma histInv_applyOp (op : StoreOp) (h : ChaptersHistory) (hh : HistInv h) :
    HistInv (applyOp op h) := by
  unfold HistInv at *
  cases op with
  | edit u rec =>
    simp only [applyOp, setChapters]
    split
    · simpa using hh
    · split
      · exact hh
      · split
        · dsimp only
          rw [List.length_tail, List.length_append]
          simp only [List.length_cons, List.length_nil]
          omega
        next hc =>
          dsimp only
          simp only [List.length_append, List.length_cons, List.length_nil]
          simp only [List.length_append, List.length_cons, List.length_nil] at hc
          omega
  | undo =>
    simp only [applyOp, handleUndo]
    cases hl : h.past.getLast? with
    | none => simpa using hh
    | some prev =>
      have hne : h.past ≠ [] := by
        intro hnil; rw [hnil] at hl; simp at hl
      simp only [List.length_dropLast, List.length_cons]
      have : 1 ≤ h.past.length := List.length_pos.mpr hne
      omega
  | redo =>
    simp only [applyOp, handleRedo]
    cases hf : h.future with
    | nil => simpa using hh
    | cons next rest =>
      simp only [List.length_append, List.length_singleton, List.length_cons,
        List.length_nil]
      rw [hf] at hh
      simp only [List.length_cons] at hh
      omega

lemma histInv_applyOps (ops : List StoreOp) (h : ChaptersHistory)
    (hh : HistInv h) : HistInv (applyOps ops h) := by
  induction ops generalizing h with
  | nil => simpa [applyOps] using hh
  | cons op rest ih =>
    simp only [applyOps, List.foldl_cons] at *
    exact ih _ (histInv_applyOp op h hh)

lemma dropLast_append_of_getLast? (l : List (List Chapter)) (x : List Chapter)
    (h : l.getLast? = some x) : l.dropLast ++ [x] = l := by
  have hne : l ≠ [] := by intro hn; rw [hn] at h; simp at h
  have h2 : l.getLast hne = x := by
    have h3 := List.getLast?_eq_getLast l hne
    rw [h3, Option.some.injEq] at h
    exact h
  rw [← h2]
  exact List.dropLast_append_getLast hne

/-- Claim C2: for a history-significant edit (an update recorded through the
state store's update path that changes the present state), undo restores
exactly the pre-edit state, redo after that undo restores exactly the
post-edit state (in fact the whole history record), and any
history-significant edit leaves an empty future stack, so a new edit after
an undo clears the redo stack. -/
theorem undo_redo_roundtrip (H : ChaptersHistory)
    (u : List Chapter → List Chapter) (hne : u H.present ≠ H.present) :
    (handleUndo (setChapters u true H)).present = H.present
    ∧ handleRedo (handleUndo (setChapters u true H)) = setChapters u true H
    ∧ (∀ (h' : ChaptersHistory) (u' : List Chapter → List Chapter),
        u' h'.present ≠ h'.present → (setChapters u' true h').future = []) := by
  have hrec := setChapters_record_of_ne u H hne
  have hlast := capped_getLast? H.past H.present
  refine ⟨?_, ?_, ?_⟩
  · rw [hrec]
    unfold handleUndo
    dsimp only
    rw [hlast]
  · rw [hrec]
    unfold handleUndo
    dsimp only
    rw [hlast]
    unfold handleRedo
    dsimp only
    rw [dropLast_append_of_getLast? _ _ hlast]
  · intro h' u' hne'
    rw [setChapters_record_of_ne u' h' hne']

/-- Witness for C2 at a concrete one-edit scenario. -/
theorem undo_redo_roundtrip_witness :
    (handleUndo (setChapters (fun _ => [⟨"c", []⟩]) true initialHistory)).present
        = initialHistory.present
    ∧ handleRedo (handleUndo (setChapters (fun _ => [⟨"c", []⟩]) true initialHistory))
        = setChapters (fun _ => [⟨"c", []⟩]) true initialHistory
    ∧ (setChapters (fun _ => [⟨"c", []⟩]) true initialHistory).future = [] := by
  have h := undo_redo_roundtrip initialHistory (fun _ => [⟨"c", []⟩]) (by decide)
  exact ⟨h.1, h.2.1, h.2.2 initialHistory _ (by decide)⟩

/-- Claim C10: the past stack of the history store never exceeds 50
snapshots on any reachable state, and recording a history-significant edit
when exactly 50 snapshots are stored discards the oldest snapshot. -/
theorem history_cap (ops : List StoreOp) (H : ChaptersHistory)
    (u : List Chapter → List Chapter) (h50 : H.past.length = 50)
    (hne : u H.present ≠ H.present) :
    (applyOps ops initialHistory).past.length ≤ 50
    ∧ (setChapters u true H).past = H.past.tail ++ [H.present] := by
  constructor
  · have h0 : HistInv initialHistory := by
      simp [HistInv, initialHistory]
    have hinv := histInv_applyOps ops initialHistory h0
    unfold HistInv at hinv
    omega
  · rw [setChapters_record_of_ne u H hne]
    dsimp only
    have hlen : 50 < (H.past ++ [H.present]).length := by
      simp [List.length_append, h50]
    rw [if_pos hlen]
    cases hp : H.past with
    | nil => rw [hp] at h50; simp at h50
    | cons a l => simp

/-- Witness for C10: recording an edit on a history whose past already holds
50 snapshots drops the oldest one. -/
theorem history_cap_witness :
    (applyOps [] initialHistory).past.length ≤ 50
    ∧ (setChapters (fun _ => [⟨"c", []⟩]) true
        ⟨List.replicate 50 [], [], []⟩).past
      = (List.replicate 50 ([] : List Chapter)).tail ++ [[]] :=
  history_cap [] ⟨List.replicate 50 [], [], []⟩ (fun _ => [⟨"c", []⟩])
    (by simp) (by decide)

/-- Claim C3: after any panel insertion (the detection write-back), deletion,
split, duplication or merge, the `index` fields of every page's panels are
exactly the contiguous integers 0, 1, ..., n-1 in list order: each operation
preserves the all-pages contiguity invariant, the merge operation (modelled
from the spec) preserves page-level contiguity, and the detection write-back
establishes it outright. -/
theorem panel_indices_contiguous (chs : List Chapter)
    (chapterId pageId panelId newId idA idB : String) (splitY : ℚ) (i : ℕ)
    (ps : List Panel) (raw : List DetectedPanel) :
    (AllPagesContig chs →
      AllPagesContig (handleDeletePanel chapterId pageId panelId chs))
    ∧ (AllPagesContig chs →
      AllPagesContig (handleSplitPanel pageId panelId splitY idA idB chs))
    ∧ (AllPagesContig chs →
      AllPagesContig (handleDuplicatePanel chapterId pageId panelId newId chs))
    ∧ (Contig ps → Contig (mergeWithNext i ps))
    ∧ Contig (panelsFromDetection raw pageId) := by
  refine ⟨?_, ?_, ?_, contig_mergeWithNext i ps,
    contig_panelsFromDetection raw pageId⟩
  · intro h
    unfold handleDeletePanel
    apply allPagesContig_map _ _ _ h
    intro ch hch pg hpg
    split at hpg
    · exact hch pg hpg
    · dsimp only at hpg
      refine pages_contig_of_map _ _ ?_ hch pg hpg
      intro pg0 h0
      split
      · exact h0
      · exact contig_deletePanelsOnPage _ _
  · intro h
    unfold handleSplitPanel
    apply allPagesContig_map _ _ _ h
    intro ch hch pg hpg
    dsimp only at hpg
    refine pages_contig_of_map _ _ ?_ hch pg hpg
    intro pg0 h0
    split
    · exact h0
    · exact contig_splitPanels _ _ _ _ _ h0
  · intro h
    unfold handleDuplicatePanel
    apply allPagesContig_map _ _ _ h
    intro ch hch pg hpg
    split at hpg
    · exact hch pg hpg
    · dsimp only at hpg
      refine pages_contig_of_map _ _ ?_ hch pg hpg
      intro pg0 h0
      split
      · exact h0
      · exact contig_duplicatePanels _ _ _ h0

/-- Witness for C3 at a concrete two-panel page. -/
theorem panel_indices_contiguous_witness :
    AllPagesContig (handleDeletePanel "ch1" "pg1" "pA" sampleChapters)
    ∧ AllPagesContig (handleSplitPanel "pg1" "pA" (1/4) "a" "b" sampleChapters)
    ∧ AllPagesContig (handleDuplicatePanel "ch1" "pg1" "pA" "dup" sampleChapters)
    ∧ Contig (mergeWithNext 0 [samplePanelA, samplePanelB])
    ∧ Contig (panelsFromDetection [] "pg1") := by
  have h := panel_indices_contiguous sampleChapters "ch1" "pg1" "pA" "dup"
    "a" "b" (1/4) 0 [samplePanelA, samplePanelB] []
  exact ⟨h.1 (by decide), h.2.1 (by decide), h.2.2.1 (by decide),
    h.2.2.2.1 (by decide), h.2.2.2.2⟩

lemma getElem?_splice_mid {α : Type} (ps mid tl : List α) (i k : ℕ)
    (hi : i ≤ ps.length) (hk : k < mid.length) :
    (ps.take i ++ mid ++ tl)[i + k]? = mid[k]? := by
  have hlen : (ps.take i).length = i := by
    rw [List.length_take]; omega
  rw [List.append_assoc,
    List.getElem?_append_right (by rw [hlen]; omega : (ps.take i).length ≤ i + k),
    hlen]
  have hik : i + k - i = k := by omega
  rw [hik, List.getElem?_append_left hk]

lemma lookup_cons_self (k v : String) (l : List (String × String)) :
    List.lookup k ((k, v) :: l) = some v := by
  simp [List.lookup]

lemma lookup_cons_ne (k k0 v0 : String) (l : List (String × String))
    (h : (k == k0) = false) :
    List.lookup k ((k0, v0) :: l) = List.lookup k l := by
  simp [List.lookup, h]

lemma lookup_append_of_some (l₁ l₂ : List (String × String)) (k : String)
    (v : String) (h : l₁.lookup k = some v) : (l₁ ++ l₂).lookup k = some v := by
  induction l₁ with
  | nil => simp [List.lookup] at h
  | cons kv rest ih =>
    cases kv with
    | mk k0 v0 =>
      rw [List.cons_append]
      cases hbeq : k == k0 with
      | true =>
        have hk : k = k0 := eq_of_beq hbeq
        subst hk
        rw [lookup_cons_self] at h ⊢
        exact h
      | false =>
        rw [lookup_cons_ne _ _ _ _ hbeq] at h ⊢
        exact ih h

lemma lookup_mergeMap (a b : List (String × String)) (lang va vb : String)
    (hva : a.lookup lang = some va) (hvb : b.lookup lang = some vb) :
    (a.map fun kv =>
      match b.lookup kv.1 with
      | some v2 => (kv.1, kv.2 ++ " " ++ v2)
      | none => kv).lookup lang = some (va ++ " " ++ vb) := by
  induction a with
  | nil => simp [List.lookup] at hva
  | cons kv rest ih =>
    cases kv with
    | mk k0 v0 =>
      simp only [List.map_cons]
      cases hbeq : lang == k0 with
      | true =>
        have hk : lang = k0 := eq_of_beq hbeq
        subst hk
        rw [lookup_cons_self] at hva
        have hv : v0 = va := Option.some.inj hva
        subst hv
        rw [hvb]
        exact lookup_cons_self _ _ _
      | false =>
        rw [lookup_cons_ne _ _ _ _ hbeq] at hva
        cases hbl : b.lookup k0 with
        | none =>
          dsimp only
          rw [lookup_cons_ne _ _ _ _ hbeq]
          exact ih hva
        | some v2 =>
          dsimp only
          rw [lookup_cons_ne _ _ _ _ hbeq]
          exact ih hva

lemma lookup_mergeTexts (a b : List (String × String)) (lang va vb : String)
    (hva : a.lookup lang = some va) (hvb : b.lookup lang = some vb) :
    (mergeTexts a b).lookup lang = some (va ++ " " ++ vb) := by
  unfold mergeTexts
  exact lookup_append_of_some _ _ _ _ (lookup_mergeMap a b lang va vb hva hvb)

/-- Claim C8: applying the (spec-modelled) "Merge with Next" to the panel in
position i concatenates its narrative text with its immediate successor's in
every language (with a separating space), leaves the panel's geometry
unchanged, removes the successor so the panel count decreases by exactly 1,
and re-indexes the remaining panels. -/
theorem merge_with_next_behavior (ps : List Panel) (i : ℕ) (a b : Panel)
    (ha : ps[i]? = some a) (hb : ps[i + 1]? = some b) :
    (mergeWithNext i ps).length + 1 = ps.length
    ∧ Contig (mergeWithNext i ps)
    ∧ ∃ merged, (mergeWithNext i ps)[i]? = some merged
        ∧ merged.coordinates = a.coordinates
        ∧ ∀ lang va vb, a.recap_texts.lookup lang = some va →
            b.recap_texts.lookup lang = some vb →
            merged.recap_texts.lookup lang = some (va ++ " " ++ vb) := by
  have hi1 : i + 1 < ps.length := (List.getElem?_eq_some.mp hb).1
  have hres : mergeWithNext i ps = reindex (ps.take i
      ++ [{ a with recap_texts := mergeTexts a.recap_texts b.recap_texts }]
      ++ ps.drop (i + 2)) := by
    unfold mergeWithNext
    rw [ha, hb]
  refine ⟨?_, ?_, ?_⟩
  · rw [hres, reindex_length]
    simp only [List.length_append, List.length_take, List.length_drop,
      List.length_cons, List.length_nil]
    omega
  · rw [hres]; exact contig_reindex _
  · refine ⟨{ { a with recap_texts := mergeTexts a.recap_texts b.recap_texts }
        with index := i }, ?_, rfl, ?_⟩
    · rw [hres, reindex_getElem?]
      have hmid := getElem?_splice_mid ps
        [{ a with recap_texts := mergeTexts a.recap_texts b.recap_texts }]
        (ps.drop (i + 2)) i 0 (by omega) (by norm_num)
      simp only [Nat.add_zero] at hmid
      rw [hmid]
      rfl
    · intro lang va vb hva hvb
      exact lookup_mergeTexts _ _ _ _ _ hva hvb

/-- Witness for C8 at the spec's scenario: panel A with text Hello, panel B
with text world. -/
theorem merge_with_next_behavior_witness :
    (mergeWithNext 0 [samplePanelA, samplePanelB]).length + 1
        = ([samplePanelA, samplePanelB] : List Panel).length
    ∧ Contig (mergeWithNext 0 [samplePanelA, samplePanelB])
    ∧ ∃ merged, (mergeWithNext 0 [samplePanelA, samplePanelB])[0]? = some merged
        ∧ merged.coordinates = samplePanelA.coordinates
        ∧ ∀ lang va vb,
            samplePanelA.recap_texts.lookup lang = some va →
            samplePanelB.recap_texts.lookup lang = some vb →
            merged.recap_texts.lookup lang = some (va ++ " " ++ vb) :=
  merge_with_next_behavior [samplePanelA, samplePanelB] 0
    samplePanelA samplePanelB rfl rfl

/-- Claim C9: splitting a panel at a line strictly inside its vertical
extent replaces it with exactly two panels sharing the original x and w,
with top = (x, y, w, s - y) and bottom = (x, s, w, (y + h) - s), whose
vertical extents recombine to the original exactly; a line at or outside
the panel's vertical extent makes the operation a no-op. -/
theorem split_panel_roundtrip (ps : List Panel) (panelId idA idB : String)
    (splitY : ℚ) (i : ℕ) (orig : Panel)
    (hfind : ps.findIdx? (fun p => p.panel_id == panelId) = some i)
    (hget : ps[i]? = some orig) :
    (orig.coordinates.y < splitY →
      splitY < orig.coordinates.y + orig.coordinates.h →
      ∃ top bottom,
        (splitPanels panelId splitY idA idB ps)[i]? = some top
        ∧ (splitPanels panelId splitY idA idB ps)[i + 1]? = some bottom
        ∧ (splitPanels panelId splitY idA idB ps).length = ps.length + 1
        ∧ top.coordinates = ⟨orig.coordinates.x, orig.coordinates.y,
            orig.coordinates.w, splitY - orig.coordinates.y⟩
        ∧ bottom.coordinates = ⟨orig.coordinates.x, splitY,
            orig.coordinates.w,
            (orig.coordinates.y + orig.coordinates.h) - splitY⟩
        ∧ top.coordinates.y = orig.coordinates.y
        ∧ bottom.coordinates.y + bottom.coordinates.h
            = orig.coordinates.y + orig.coordinates.h
        ∧ top.coordinates.h + bottom.coordinates.h = orig.coordinates.h)
    ∧ ((splitY ≤ orig.coordinates.y
        ∨ orig.coordinates.y + orig.coordinates.h ≤ splitY) →
      splitPanels panelId splitY idA idB ps = ps) := by
  have hi : i < ps.length := (List.getElem?_eq_some.mp hget).1
  constructor
  · intro h1 h2
    have hcond : ¬(splitY ≤ orig.coordinates.y
        ∨ orig.coordinates.y + orig.coordinates.h ≤ splitY) := by
      rintro (hc | hc) <;> linarith
    have hres : splitPanels panelId splitY idA idB ps
        = reindex (ps.take i
          ++ [splitTopPanel orig splitY idA, splitBottomPanel orig splitY idB]
          ++ ps.drop (i + 1)) := by
      unfold splitPanels
      rw [hfind]
      dsimp only
      rw [hget]
      dsimp only
      rw [if_neg hcond]
    refine ⟨{ splitTopPanel orig splitY idA with index := i },
      { splitBottomPanel orig splitY idB with index := i + 1 },
      ?_, ?_, ?_, rfl, rfl, rfl, ?_, ?_⟩
    · rw [hres, reindex_getElem?]
      have hmid := getElem?_splice_mid ps
        [splitTopPanel orig splitY idA, splitBottomPanel orig splitY idB]
        (ps.drop (i + 1)) i 0 hi.le (by norm_num)
      simp only [Nat.add_zero] at hmid
      rw [hmid]
      rfl
    · rw [hres, reindex_getElem?]
      have hmid := getElem?_splice_mid ps
        [splitTopPanel orig splitY idA, splitBottomPanel orig splitY idB]
        (ps.drop (i + 1)) i 1 hi.le (by norm_num)
      rw [hmid]
      rfl
    · rw [hres, reindex_length]
      simp only [List.length_append, List.length_take, List.length_drop,
        List.length_cons, List.length_nil]
      omega
    · show splitY + ((orig.coordinates.y + orig.coordinates.h) - splitY)
        = orig.coordinates.y + orig.coordinates.h
      ring
    · show (splitY - orig.coordinates.y)
          + ((orig.coordinates.y + orig.coordinates.h) - splitY)
        = orig.coordinates.h
      ring
  · intro hcond
    unfold splitPanels
    rw [hfind]
    dsimp only
    rw [hget]
    dsimp only
    rw [if_pos hcond]

/-- Witness for C9: a concrete split strictly inside the panel, and a
concrete out-of-range split that is a no-op. -/
theorem split_panel_roundtrip_witness :
    (∃ top bottom,
        (splitPanels "pA" (1/4) "a" "b" [samplePanelA])[0]? = some top
        ∧ (splitPanels "pA" (1/4) "a" "b" [samplePanelA])[0 + 1]? = some bottom
        ∧ (splitPanels "pA" (1/4) "a" "b" [samplePanelA]).length
            = ([samplePanelA] : List Panel).length + 1
        ∧ top.coordinates = ⟨samplePanelA.coordinates.x,
            samplePanelA.coordinates.y, samplePanelA.coordinates.w,
            1/4 - samplePanelA.coordinates.y⟩
        ∧ bottom.coordinates = ⟨samplePanelA.coordinates.x, 1/4,
            samplePanelA.coordinates.w,
            (samplePanelA.coordinates.y + samplePanelA.coordinates.h) - 1/4⟩
        ∧ top.coordinates.y = samplePanelA.coordinates.y
        ∧ bottom.coordinates.y + bottom.coordinates.h
            = samplePanelA.coordinates.y + samplePanelA.coordinates.h
        ∧ top.coordinates.h + bottom.coordinates.h
            = samplePanelA.coordinates.h)
    ∧ splitPanels "pA" 2 "a" "b" [samplePanelA] = [samplePanelA] := by
  constructor
  · exact (split_panel_roundtrip [samplePanelA] "pA" "a" "b" (1/4) 0
      samplePanelA rfl rfl).1 (by norm_num [samplePanelA])
      (by norm_num [samplePanelA])
  · exact (split_panel_roundtrip [samplePanelA] "pA" "a" "b" 2 0
      samplePanelA rfl rfl).2 (Or.inr (by norm_num [samplePanelA]))

lemma flip_nonneg (w : ℚ) : 0 ≤ if w < 0 then -w else w := by
  split <;> linarith

/-- Counterexample to C1 as stated: a single resize frame is pushed to the
store unclamped, and dragging the right handle from the panel's right edge
exactly onto its left edge produces a zero-width rectangle (only strictly
negative widths are flipped), violating the invariant w > 0. -/
theorem panel_invariant_counterexample :
    ¬ (resizingStep ⟨1/10, 1/10, 2/10, 2/10⟩ .r (3/10) (2/10) (1/10)
        (2/10)).Valid := by
  unfold resizingStep Rect.Valid
  norm_num [ResizeHandle.hasL, ResizeHandle.hasR, ResizeHandle.hasT,
    ResizeHandle.hasB]

/-- Claim C1 (amended): after a move frame, a threshold-passing draw-create,
a split, a crop-edge and a duplicate, every affected panel's rectangle
satisfies the invariant 0 ≤ x, 0 ≤ y, x + w ≤ 1, y + h ≤ 1, w > 0, h > 0
(given panels satisfying it beforehand and pointer coordinates clamped to
[0,1]); a resize frame guarantees only w ≥ 0 and h ≥ 0, since its result is
not clamped and a drag landing exactly on the opposite edge yields a
zero-extent rectangle. -/
theorem edit_operations_invariant :
    (∀ (r : Rect) (sX sY cX cY : ℚ), r.Valid →
      (movingStep r sX sY cX cY).Valid)
    ∧ (∀ sX sY eX eY : ℚ, 0 ≤ sX → sX ≤ 1 → 0 ≤ sY → sY ≤ 1 →
        0 ≤ eX → eX ≤ 1 → 0 ≤ eY → eY ≤ 1 →
        1/100 < (drawnRect sX sY eX eY).w →
        1/100 < (drawnRect sX sY eX eY).h →
        (drawnRect sX sY eX eY).Valid)
    ∧ (∀ (ps : List Panel) (panelId idA idB : String) (splitY : ℚ)
        (p : Panel), (∀ q ∈ ps, q.coordinates.Valid) →
        p ∈ splitPanels panelId splitY idA idB ps → p.coordinates.Valid)
    ∧ (∀ (ps : List Panel) (panelId : String) (cropY : ℚ)
        (direction : CropDirection) (p : Panel),
        (∀ q ∈ ps, q.coordinates.Valid) →
        p ∈ cropPanels panelId cropY direction ps → p.coordinates.Valid)
    ∧ (∀ (ps : List Panel) (panelId newId : String) (p : Panel),
        (∀ q ∈ ps, q.coordinates.Valid) →
        p ∈ duplicatePanels panelId newId ps → p.coordinates.Valid)
    ∧ (∀ (r : Rect) (handle : ResizeHandle) (sX sY cX cY : ℚ),
        0 ≤ (resizingStep r handle sX sY cX cY).w
        ∧ 0 ≤ (resizingStep r handle sX sY cX cY).h) := by
  refine ⟨?_, ?_, ?_, ?_, ?_, ?_⟩
  · intro r sX sY cX cY hr
    obtain ⟨hx, hy, hxw, hyh, hw, hh⟩ := hr
    unfold movingStep Rect.Valid
    dsimp only
    refine ⟨le_max_left _ _, le_max_left _ _, ?_, ?_, hw, hh⟩
    · have h1 : max 0 (min (1 - r.w) (r.x + (cX - sX))) ≤ 1 - r.w :=
        max_le (by linarith) (min_le_left _ _)
      linarith
    · have h1 : max 0 (min (1 - r.h) (r.y + (cY - sY))) ≤ 1 - r.h :=
        max_le (by linarith) (min_le_left _ _)
      linarith
  · intro sX sY eX eY h0sX h1sX h0sY h1sY h0eX h1eX h0eY h1eY hw hh
    unfold drawnRect Rect.Valid at *
    dsimp only at *
    refine ⟨le_min h0sX h0eX, le_min h0sY h0eY, ?_, ?_, by linarith,
      by linarith⟩
    · rcases le_total sX eX with h | h
      · rw [min_eq_left h, abs_of_nonneg (by linarith : (0:ℚ) ≤ eX - sX)]
        linarith
      · rw [min_eq_right h, abs_of_nonpos (by linarith : eX - sX ≤ 0)]
        linarith
    · rcases le_total sY eY with h | h
      · rw [min_eq_left h, abs_of_nonneg (by linarith : (0:ℚ) ≤ eY - sY)]
        linarith
      · rw [min_eq_right h, abs_of_nonpos (by linarith : eY - sY ≤ 0)]
        linarith
  · intro ps panelId idA idB splitY p hval hp
    unfold splitPanels at hp
    rcases hf : ps.findIdx? (fun q => q.panel_id == panelId) with _ | i
    · rw [hf] at hp; exact hval p hp
    · rw [hf] at hp
      dsimp only at hp
      rcases hg : ps[i]? with _ | orig
      · rw [hg] at hp; exact hval p hp
      · rw [hg] at hp
        dsimp only at hp
        have horig := hval orig (List.getElem?_mem hg)
        obtain ⟨hx, hy, hxw, hyh, hw, hh⟩ := horig
        split at hp
        · exact hval p hp
        · rename_i hcond
          have h1 : orig.coordinates.y < splitY := by
            by_contra hc
            exact hcond (Or.inl (by linarith))
          have h2 : splitY < orig.coordinates.y + orig.coordinates.h := by
            by_contra hc
            exact hcond (Or.inr (by linarith))
          obtain ⟨q, hq, hcoords⟩ := mem_reindex _ _ hp
          rw [hcoords]
          rcases List.mem_append.mp hq with hq1 | hq2
          · rcases List.mem_append.mp hq1 with hq3 | hq4
            · exact hval q (List.mem_of_mem_take hq3)
            · rcases List.mem_cons.mp hq4 with hq5 | hq6
              · subst hq5
                refine ⟨hx, hy, hxw, ?_, hw, ?_⟩ <;>
                  dsimp only [splitTopPanel] <;> linarith
              · rcases List.mem_cons.mp hq6 with hq7 | hq8
                · subst hq7
                  refine ⟨hx, ?_, hxw, ?_, hw, ?_⟩ <;>
                    dsimp only [splitBottomPanel] <;> linarith
                · cases hq8
          · exact hval q (List.mem_of_mem_drop hq2)
  · intro ps panelId cropY direction p hval hp
    unfold cropPanels at hp
    rw [List.mem_map] at hp
    obtain ⟨q, hq, rfl⟩ := hp
    have hqv := hval q hq
    obtain ⟨hx, hy, hxw, hyh, hw, hh⟩ := hqv
    dsimp only
    split
    · exact ⟨hx, hy, hxw, hyh, hw, hh⟩
    · have hcl : (0:ℚ) ≤ max 0 (min 1 cropY) := le_max_left _ _
      have hcu : max 0 (min 1 cropY) ≤ 1 :=
        max_le (by norm_num) (min_le_left _ _)
      cases direction with
      | top =>
        dsimp only
        split
        · rename_i hnewH
          exact ⟨hx, hcl, hxw, by dsimp only; linarith, hw,
            by dsimp only; linarith⟩
        · exact ⟨hx, hy, hxw, hyh, hw, hh⟩
      | bottom =>
        dsimp only
        split
        · rename_i hnewH
          exact ⟨hx, hy, hxw, by dsimp only; linarith, hw,
            by dsimp only; linarith⟩
        · exact ⟨hx, hy, hxw, hyh, hw, hh⟩
  · intro ps panelId newId p hval hp
    unfold duplicatePanels at hp
    rcases hf : ps.findIdx? (fun q => q.panel_id == panelId) with _ | i
    · rw [hf] at hp; exact hval p hp
    · rw [hf] at hp
      dsimp only at hp
      rcases hg : ps[i]? with _ | orig
      · rw [hg] at hp; exact hval p hp
      · rw [hg] at hp
        dsimp only at hp
        obtain ⟨q, hq, hcoords⟩ := mem_reindex _ _ hp
        rw [hcoords]
        rcases List.mem_append.mp hq with hq1 | hq2
        · rcases List.mem_append.mp hq1 with hq3 | hq4
          · exact hval q (List.mem_of_mem_take hq3)
          · rcases List.mem_cons.mp hq4 with hq5 | hq6
            · subst hq5
              exact hval orig (List.getElem?_mem hg)
            · cases hq6
        · exact hval q (List.mem_of_mem_drop hq2)
  · intro r handle sX sY cX cY
    unfold resizingStep
    dsimp only
    exact ⟨flip_nonneg _, flip_nonneg _⟩

/-- Witness for the amended C1 at concrete inputs (for the split, crop and
duplicate clauses the target id is absent, exercising their no-op path). -/
theorem edit_operations_invariant_witness :
    (movingStep ⟨0, 0, 1, 1⟩ 0 0 0 0).Valid
    ∧ (drawnRect 0 0 1 1).Valid
    ∧ samplePanelA.coordinates.Valid
    ∧ samplePanelB.coordinates.Valid
    ∧ samplePanelA.coordinates.Valid
    ∧ (0 ≤ (resizingStep ⟨0, 0, 1, 1⟩ .br 1 1 0 0).w
        ∧ 0 ≤ (resizingStep ⟨0, 0, 1, 1⟩ .br 1 1 0 0).h) := by
  have h := edit_operations_invariant
  have hvalA : ∀ q ∈ [samplePanelA], q.coordinates.Valid := by
    intro q hq
    rw [List.mem_singleton] at hq
    subst hq
    norm_num [samplePanelA, Rect.Valid]
  have hvalB : ∀ q ∈ [samplePanelB], q.coordinates.Valid := by
    intro q hq
    rw [List.mem_singleton] at hq
    subst hq
    norm_num [samplePanelB, Rect.Valid]
  refine ⟨h.1 ⟨0, 0, 1, 1⟩ 0 0 0 0 (by norm_num [Rect.Valid]),
    h.2.1 0 0 1 1 (by norm_num) (by norm_num) (by norm_num) (by norm_num)
      (by norm_num) (by norm_num) (by norm_num) (by norm_num)
      (by norm_num [drawnRect]) (by norm_num [drawnRect]),
    h.2.2.1 [samplePanelA] "nope" "a" "b" 1 samplePanelA hvalA
      (List.mem_singleton_self samplePanelA),
    h.2.2.2.1 [samplePanelB] "nope" 1 CropDirection.top samplePanelB hvalB
      (List.mem_singleton_self samplePanelB),
    h.2.2.2.2.1 [samplePanelA] "nope" "dup" samplePanelA hvalA
      (List.mem_singleton_self samplePanelA),
    h.2.2.2.2.2 ⟨0, 0, 1, 1⟩ .br 1 1 0 0⟩

lemma detectByWhitespace_full_width (gray : ℕ → ℕ → ℚ) (width height : ℕ) :
    ∀ p ∈ detectByWhitespace gray width height,
      p.coordinates.x = 0 ∧ p.coordinates.w = 1 := by
  intro p hp
  unfold detectByWhitespace at hp
  rw [List.mem_filterMap] at hp
  obtain ⟨se, hse, hf⟩ := hp
  by_cases hc : (height : ℚ) * (5/100) < (se.2 : ℚ) - (se.1 : ℚ)
  · rw [if_pos hc] at hf
    have := Option.some.inj hf
    subst this
    exact ⟨rfl, rfl⟩
  · rw [if_neg hc] at hf
    cases hf

/-- Claim C4: `detectPanels` always returns at least one panel; every
returned panel is full-width (x = 0, w = 1); and exactly when no
gutter-delimited span survives the minimum-height filter, the result is one
fallback panel covering the whole page with coordinates [0, 0, 1, 1] and
low confidence 0.3. -/
theorem detect_panels_contract (gray : ℕ → ℕ → ℚ) (width height : ℕ)
    (stamp : String) :
    1 ≤ (detectPanels gray width height stamp).length
    ∧ (∀ p ∈ detectPanels gray width height stamp,
        p.coordinates.x = 0 ∧ p.coordinates.w = 1)
    ∧ (detectByWhitespace gray width height = [] →
        detectPanels gray width height stamp
          = [{ panel_id := "fallback-0", coordinates := ⟨0, 0, 1, 1⟩,
               confidence := 3/10, status := "pending" }]) := by
  refine ⟨?_, ?_, ?_⟩
  · unfold detectPanels
    dsimp only
    split
    · simp
    · rename_i hne
      rw [List.length_map, List.enum_length]
      have hnil : detectByWhitespace gray width height ≠ [] := by
        intro h0
        rw [h0] at hne
        simp at hne
      exact List.length_pos.mpr hnil
  · intro p hp
    unfold detectPanels at hp
    dsimp only at hp
    split at hp
    · rw [List.mem_singleton] at hp
      subst hp
      exact ⟨rfl, rfl⟩
    · rw [List.mem_map] at hp
      obtain ⟨ip, hip, rfl⟩ := hp
      exact detectByWhitespace_full_width gray width height ip.2
        (List.getElem?_mem (List.mem_enum_iff_getElem?.mp hip))
  · intro hempty
    unfold detectPanels
    rw [hempty]
    rfl

/-- Witness for C4: a degenerate zero-height page produces no surviving
span, hence exactly the fallback panel. -/
theorem detect_panels_contract_witness :
    1 ≤ (detectPanels (fun _ _ => 0) 0 0 "s").length
    ∧ (∀ p ∈ detectPanels (fun _ _ => 0) 0 0 "s",
        p.coordinates.x = 0 ∧ p.coordinates.w = 1)
    ∧ detectPanels (fun _ _ => 0) 0 0 "s"
        = [{ panel_id := "fallback-0", coordinates := ⟨0, 0, 1, 1⟩,
             confidence := 3/10, status := "pending" }] := by
  have hempty : detectByWhitespace (fun _ _ => 0 : ℕ → ℕ → ℚ) 0 0 = [] := by
    unfold detectByWhitespace boundariesOf
    norm_num
  have h := detect_panels_contract (fun _ _ => 0) 0 0 "s"
  exact ⟨h.1, h.2.1, h.2.2 hempty⟩

lemma withRetriesGo_error_count {α : Type} (fn : ℕ → Except String α) :
    ∀ (remaining i : ℕ) (le : Option String) (e : String),
    (withRetriesGo fn le i remaining).1 = .error e →
    (withRetriesGo fn le i remaining).2 = i + remaining := by
  intro remaining
  induction remaining with
  | zero =>
    intro i le e h
    simp [withRetriesGo]
  | succ rem ih =>
    intro i le e h
    unfold withRetriesGo at h ⊢
    cases hfn : fn i with
    | ok v =>
      rw [hfn] at h
      simp at h
    | error e2 =>
      rw [hfn] at h
      dsimp only at h ⊢
      rw [ih (i + 1) (some e2) e h]
      omega

lemma withRetries_error_count {α : Type} (fn : ℕ → Except String α) (r : ℕ)
    (e : String) (h : (withRetries fn r).1 = .error e) :
    (withRetries fn r).2 = r := by
  unfold withRetries at h ⊢
  rw [withRetriesGo_error_count fn r 0 none e h]
  omega

lemma wrf_error_trace {α : Type} (api : String → ℕ → Except String α)
    (r : ℕ) : ∀ (ms : List String) (le : Option String) (e : String),
    (withRetriesAndFallbacksGo api r ms le).1 = .error e →
    (withRetriesAndFallbacksGo api r ms le).2
      = ms.flatMap fun m => (List.range r).map fun i => (m, i) := by
  intro ms
  induction ms with
  | nil =>
    intro le e h
    simp [withRetriesAndFallbacksGo]
  | cons m rest ih =>
    intro le e h
    unfold withRetriesAndFallbacksGo at h ⊢
    rcases hm : withRetries (api m) r with ⟨res, n⟩
    rw [hm] at h
    cases res with
    | ok v =>
      dsimp only at h
      exact absurd h (by simp)
    | error e2 =>
      dsimp only at h ⊢
      have hx : (withRetries (api m) r).1 = Except.error e2 := by rw [hm]
      have h2 := withRetries_error_count (api m) r e2 hx
      rw [hm] at h2
      dsimp only at h2
      subst h2
      rw [List.flatMap_cons]
      congr 1
      exact ih (some e2) e h

lemma wrf_advance {α : Type} (api : String → ℕ → Except String α) (r : ℕ)
    (m : String) (rest : List String) (le : Option String) (e : String)
    (h : (withRetries (api m) r).1 = .error e) :
    (withRetriesAndFallbacksGo api r (m :: rest) le).1
      = (withRetriesAndFallbacksGo api r rest (some e)).1 := by
  conv_lhs => rw [withRetriesAndFallbacksGo]
  rcases hm : withRetries (api m) r with ⟨res, n⟩
  have hr : res = .error e := by
    rw [hm] at h
    simpa using h
  subst hr
  dsimp only

/-- Counterexample to C7 as stated: when every attempt against the single
fixed TTS model fails, `generateAudioForSegment` fails permanently after
exactly 3 same-model attempts without ever advancing to any other model —
narration audio has no priority-ordered fallback list. -/
theorem audio_fallback_counterexample :
    (generateAudioForSegment "hello" ""
        fun _ _ => (.error "boom" : Except String TtsResponse)).1
      = .error ("All 3 attempts failed. Last error: boom")
    ∧ (generateAudioForSegment "hello" ""
        fun _ _ => (.error "boom" : Except String TtsResponse)).2
      = [(TTS_MODEL, 0), (TTS_MODEL, 1), (TTS_MODEL, 2)]
    ∧ ((generateAudioForSegment "hello" ""
        fun _ _ => (.error "boom" : Except String TtsResponse)).2.map
          Prod.fst)
      = [TTS_MODEL, TTS_MODEL, TTS_MODEL] :=
  ⟨rfl, rfl, rfl⟩

/-- Claim C7 (amended): narrative-model calls are governed by the two-level
policy — `withRetriesAndFallbacks` fails permanently only after every model
of the list has been exhausted for its full per-model retry count, advances
to the next model once a model fails all its retries, and sleeps
exponentially growing backoff delays between retries — while narration
audio is governed only by the first level: `generateAudioForSegment`
retries the single fixed TTS model and surfaces its permanent failure with
no cross-model fallback. -/
theorem two_level_retry_policy {α : Type} :
    (∀ (api : String → ℕ → Except String α) (ms : List String) (r : ℕ)
        (e : String),
        (withRetriesAndFallbacks api ms r).1 = .error e →
        (withRetriesAndFallbacks api ms r).2
          = ms.flatMap fun m => (List.range r).map fun i => (m, i))
    ∧ (∀ (api : String → ℕ → Except String α) (m : String)
        (rest : List String) (r : ℕ) (e : String),
        (withRetries (api m) r).1 = .error e →
        (withRetriesAndFallbacks api (m :: rest) r).1
          = (withRetriesAndFallbacksGo api r rest (some e)).1)
    ∧ (∀ (d : ℚ) (r i : ℕ), i < r - 1 →
        (retryDelays d r)[i]? = some (d * 2 ^ i))
    ∧ (∀ (text prev : String)
        (oracle : String → ℕ → Except String TtsResponse),
        (∀ pr ∈ (generateAudioForSegment text prev oracle).2,
          pr.1 = TTS_MODEL)
        ∧ (∀ e, (withRetries (oracle TTS_MODEL) 3).1 = .error e →
            ¬ trimString text = "" →
            (generateAudioForSegment text prev oracle).1 = .error e)) := by
  refine ⟨?_, ?_, ?_, ?_⟩
  · intro api ms r e h
    unfold withRetriesAndFallbacks at h ⊢
    exact wrf_error_trace api r ms none e h
  · intro api m rest r e h
    unfold withRetriesAndFallbacks
    exact wrf_advance api r m rest none e h
  · intro d r i hi
    unfold retryDelays
    rw [List.getElem?_map, List.getElem?_range hi]
    rfl
  · intro text prev oracle
    constructor
    · intro pr hpr
      unfold generateAudioForSegment at hpr
      split at hpr
      · simp at hpr
      · dsimp only at hpr
        rw [List.mem_map] at hpr
        obtain ⟨i, _, rfl⟩ := hpr
        rfl
    · intro e he hne
      unfold generateAudioForSegment
      rw [if_neg hne]
      dsimp only
      rw [he]

/-- Witness for the amended C7 at concrete oracles. -/
theorem two_level_retry_policy_witness :
    ((withRetriesAndFallbacks (fun _ _ => (.error "x" : Except String ℕ))
        ["m1", "m2"] 2).2
      = ["m1", "m2"].flatMap fun m => (List.range 2).map fun i => (m, i))
    ∧ ((withRetriesAndFallbacks (fun _ _ => (.error "x" : Except String ℕ))
        ["m1", "m2"] 2).1
      = (withRetriesAndFallbacksGo (fun _ _ => (.error "x" : Except String ℕ))
          2 ["m2"] (some "All 2 attempts failed. Last error: x")).1)
    ∧ (retryDelays 1500 3)[1]? = some (1500 * 2 ^ 1)
    ∧ ((∀ pr ∈ (generateAudioForSegment "hi" ""
          fun _ _ => (.error "x" : Except String TtsResponse)).2,
        pr.1 = TTS_MODEL)
      ∧ (generateAudioForSegment "hi" ""
          fun _ _ => (.error "x" : Except String TtsResponse)).1
        = .error ("All 3 attempts failed. Last error: x")) := by
  have h := @two_level_retry_policy ℕ
  refine ⟨h.1 _ ["m1", "m2"] 2 _ rfl, h.2.1 _ "m1" ["m2"] 2 _ rfl,
    h.2.2.1 1500 3 1 (by norm_num), ?_, ?_⟩
  · exact ((@two_level_retry_policy TtsResponse).2.2.2 "hi" ""
      fun _ _ => (.error "x" : Except String TtsResponse)).1
  · exact ((@two_level_retry_policy TtsResponse).2.2.2 "hi" ""
      fun _ _ => (.error "x" : Except String TtsResponse)).2
      "All 3 attempts failed. Last error: x" rfl (by decide)

/-- Counterexample to C5 as stated: an incomplete response returned by the
model's very first successful attempt is rejected after the retry/fallback
wrapper has already returned — exactly one API attempt is ever made, so the
contract violation is surfaced directly instead of re-entering the
retry/fallback machinery. -/
theorem story_contract_counterexample :
    (generateStoriesForPanels cexPanels ALL_TEXT_MODELS 2 cexOracle).1
      = .error ("Error generating stories: AI response is incomplete. Missing stories for panel IDs: p5")
    ∧ (generateStoriesForPanels cexPanels ALL_TEXT_MODELS 2 cexOracle).2
      = [("gemini-2.5-flash", 0)]
    ∧ (generateStoriesForPanels cexPanels ALL_TEXT_MODELS 2 cexOracle).2.length
      = 1 :=
  ⟨rfl, rfl, rfl⟩

/-- Claim C5 (amended): when the parsed response omits any submitted panel
id, `generateStoriesForPanels` rejects the whole batch with an error naming
exactly the missing ids and never accepts a partial result (a successful
return has no missing ids); the validation happens after the
retry/fallback wrapper has returned, leaving the attempt trace exactly the
wrapper's, so the violation is surfaced directly rather than triggering
retries or fallbacks. -/
theorem story_batch_validation (panels : List Panel) (models : List String)
    (r : ℕ) (oracle : String → ℕ → Except String (List StoryResult)) :
    (∀ parsed, (withRetriesAndFallbacks oracle models r).1 = .ok parsed →
        missingIds panels parsed ≠ [] →
        (generateStoriesForPanels panels models r oracle).1
          = .error ("Error generating stories: AI response is incomplete. Missing stories for panel IDs: "
              ++ String.intercalate (", ") (missingIds panels parsed)))
    ∧ (∀ pid parsed, pid ∈ panels.map (·.panel_id) →
        (parsed.map (·.panel_id)).contains pid = false →
        pid ∈ missingIds panels parsed)
    ∧ (∀ out, (generateStoriesForPanels panels models r oracle).1 = .ok out →
        missingIds panels out = [])
    ∧ (generateStoriesForPanels panels models r oracle).2
        = (withRetriesAndFallbacks oracle models r).2 := by
  refine ⟨?_, ?_, ?_, ?_⟩
  · intro parsed hok hne
    unfold generateStoriesForPanels
    dsimp only
    rw [hok]
    dsimp only
    rw [if_neg (by simpa using hne)]
  · intro pid parsed hmem hc
    unfold missingIds
    refine List.mem_filter.mpr ⟨List.mem_dedup.mpr hmem, ?_⟩
    dsimp only
    rw [hc]
    rfl
  · intro out hout
    unfold generateStoriesForPanels at hout
    dsimp only at hout
    rcases hcall : (withRetriesAndFallbacks oracle models r).1 with e | parsed
    · rw [hcall] at hout
      simp at hout
    · rw [hcall] at hout
      dsimp only at hout
      by_cases hmiss : (missingIds panels parsed).isEmpty = true
      · rw [if_pos hmiss] at hout
        dsimp only at hout
        have : parsed = out := Except.ok.inj hout
        subst this
        simpa using hmiss
      · rw [if_neg hmiss] at hout
        simp at hout
  · unfold generateStoriesForPanels
    dsimp only
    rcases hcall : (withRetriesAndFallbacks oracle models r).1 with e | parsed
    · rfl
    · dsimp only
      split <;> rfl

/-- Witness for the amended C5 at the five-panel scenario. -/
theorem story_batch_validation_witness :
    (generateStoriesForPanels cexPanels ALL_TEXT_MODELS 2 cexOracle).1
      = .error ("Error generating stories: AI response is incomplete. Missing stories for panel IDs: "
          ++ String.intercalate (", ") (missingIds cexPanels cexParsed))
    ∧ "p5" ∈ missingIds cexPanels cexParsed
    ∧ missingIds cexPanels okParsed = []
    ∧ (generateStoriesForPanels cexPanels ALL_TEXT_MODELS 2 okOracle).2
      = (withRetriesAndFallbacks okOracle ALL_TEXT_MODELS 2).2 := by
  have h := story_batch_validation cexPanels ALL_TEXT_MODELS 2 cexOracle
  have h2 := story_batch_validation cexPanels ALL_TEXT_MODELS 2 okOracle
  exact ⟨h.1 cexParsed rfl (by decide), h.2.1 "p5" cexParsed (by decide)
    (by decide), h2.2.2.1 okParsed rfl, h2.2.2.2⟩

/-- Claim C6 evaluated at its failing input: the global story batch reads
the trailing context from the chapter list captured at click time
(`chaptersHistory.present` in a stale closure), so although chapter c1's
completed call stores narrative text X on its last panel in the true state,
the chapter c2 request is logged with no context at all — its payload
carries the empty context fragment instead of X. -/
theorem stale_context_bug :
    (runAllStories ctxChapters "en-US" ctxOracle ctxChapters).1
      = [("c1", none), ("c2", none)]
    ∧ ((runAllStories ctxChapters "en-US" ctxOracle ctxChapters).2.map
        fun ch => ch.stitchedPages.map fun pg => pg.panels.map
          fun p => p.recap_texts.lookup "en-US")
      = [[[some "X"]], [[some "Y"]]]
    ∧ contextTextOf none = "" :=
  ⟨rfl, rfl, rfl⟩

end MangaStudio
